import Mathlib

/-!
Verification of the image-diff-viewer core (src/src/extension.ts) against its
natural-language specification.

The TypeScript source is shallowly embedded below.  Buffers are `List Nat`
(byte values), images are `PNGImage` records matching the pngjs `PNG` object
(`width`, `height`, flat RGBA `data`).  The pngjs codec and the pixelmatch
engine are external dependencies of the repository (not under src/), so they
are modelled from the specification's description of ImageCodec (§4.2) and
PixelDiffEngine (§4.4); every definition that is modelled rather than
transcribed says so in its doc comment.  Everything else is translated
directly from extension.ts.
-/

/-- Raw byte buffers (Node `Buffer`) are lists of byte values. -/
abbrev Bytes := List Nat

/-- In-memory pixel buffer, as produced by pngjs `PNG.sync.read`:
width, height, and a flat RGBA byte sequence of length `4 * width * height`. -/
structure PNGImage where
  width : Nat
  height : Nat
  data : List Nat
deriving DecidableEq

/-- Byte at flat index `i` of the image data (0 when out of range, matching
reads of a zero-filled buffer region). -/
def PNGImage.byteAt (img : PNGImage) (i : Nat) : Nat :=
  img.data.getD i 0

/-- Channel `c` (0=R,1=G,2=B,3=A) of the pixel at `(x, y)`. -/
def PNGImage.px (img : PNGImage) (x y c : Nat) : Nat :=
  img.byteAt (4 * (y * img.width + x) + c)

/-- The eight-byte PNG file signature. -/
def pngSignature : List Nat := [137, 80, 78, 71, 13, 10, 26, 10]

/-- Big-endian four-byte encoding of a 32-bit value. -/
def toBytes4 (n : Nat) : List Nat :=
  [n / 16777216 % 256, n / 65536 % 256, n / 256 % 256, n % 256]

/-- Big-endian four-byte decoding. -/
def fromBytes4 (b0 b1 b2 b3 : Nat) : Nat :=
  ((b0 * 256 + b1) * 256 + b2) * 256 + b3

/-- Modelled from the spec: the PNG encoder of the ImageCodec (§4.2), the
pngjs `PNG.sync.write` dependency, which is not part of src/.  The spec only
requires the PNG path to be lossless, so the model serialises the signature,
the two dimensions, and the raw RGBA bytes. -/
def encodePNG (img : PNGImage) : Bytes :=
  pngSignature ++ toBytes4 img.width ++ toBytes4 img.height ++ img.data

/-- Modelled from the spec: the PNG decoder of the ImageCodec (§4.2), the
pngjs `PNG.sync.read` dependency, which is not part of src/.  Per the spec a
`DecodeError` (here `none`) arises from an invalid signature, zero-area
dimensions, truncated data, or non-byte content. -/
def decodePNG (bytes : Bytes) : Option PNGImage :=
  if bytes.take 8 ≠ pngSignature then none
  else if ¬ bytes.all (· < 256) then none
  else
    match bytes.drop 8 with
    | b0 :: b1 :: b2 :: b3 :: c0 :: c1 :: c2 :: c3 :: rest =>
      let w := fromBytes4 b0 b1 b2 b3
      let h := fromBytes4 c0 c1 c2 c3
      if w = 0 ∨ h = 0 then none
      else if rest.length ≠ 4 * w * h then none
      else some ⟨w, h, rest⟩
    | _ => none

/-- A valid ImageBuffer per the spec's data model (§3) together with the
PNG decodability constraints (§4.2): positive 32-bit dimensions, byte-valued
pixel data of length `width * height * 4`. -/
def ValidImageBuffer (img : PNGImage) : Prop :=
  0 < img.width ∧ 0 < img.height ∧
  img.width < 4294967296 ∧ img.height < 4294967296 ∧
  img.data.length = 4 * img.width * img.height ∧
  img.data.all (· < 256) = true

instance : DecidablePred ValidImageBuffer := fun img => by
  unfold ValidImageBuffer; infer_instance

/-- Models the pngjs `new PNG({width, height})` constructor (dependency, not in
src/): a blank canvas whose data buffer is zero-filled — fully transparent
all-zero RGBA, as the spec's ImageNormalizer (§4.3) requires. -/
def PNGnew (w h : Nat) : PNGImage :=
  ⟨w, h, List.replicate (4 * w * h) 0⟩

/-- Models pngjs `PNG.bitblt src dst srcX srcY w h dstX dstY` (dependency,
not in src/): copies the `w × h` rectangle of `src` at `(srcX, srcY)` into
`dst` at `(dstX, dstY)`, leaving all other destination bytes unchanged. -/
def bitblt (src dst : PNGImage) (srcX srcY w h dstX dstY : Nat) : PNGImage :=
  { dst with
    data := (List.range (4 * dst.width * dst.height)).map fun i =>
      let c := i % 4
      let p := i / 4
      let x := p % dst.width
      let y := p / dst.width
      if dstX ≤ x ∧ x < dstX + w ∧ dstY ≤ y ∧ y < dstY + h then
        src.byteAt (4 * ((srcY + y - dstY) * src.width + (srcX + x - dstX)) + c)
      else dst.byteAt i }

/-- The normalization step of DiffImageGenerator.generate
(src/src/extension.ts lines 234–257): a blank canvas of the common size with
the image copied at origin (0,0). -/
def normalizeCanvas (p : PNGImage) (w h : Nat) : PNGImage :=
  bitblt p (PNGnew w h) 0 0 p.width p.height 0 0

/-- The options record of the pixelmatch dependency, as described by the
spec's configuration surface (§6). -/
structure DiffOptions where
  threshold : ℚ
  includeAA : Bool
  alpha : ℚ
  diffColor : Nat × Nat × Nat
  antiAliasColor : Option (Nat × Nat × Nat)
deriving DecidableEq

/-- Modelled from the spec: the defaults of the configuration surface (§6)
filled in by the pixelmatch dependency for options the caller omits. -/
def defaultDiffOptions : DiffOptions :=
  { threshold := mkRat 1 10, includeAA := false, alpha := mkRat 1 10,
    diffColor := (255, 0, 0), antiAliasColor := none }

/-- The options the source passes at its single pixelmatch call site
(src/src/extension.ts line 265): `{ threshold: 0.1, includeAA: false }`,
with the remaining options left to their defaults. -/
def generateCallOptions : DiffOptions :=
  { defaultDiffOptions with threshold := mkRat 1 10, includeAA := false }

/-- Integer luma (scaled by 1000) of the pixel at `(x, y)`. -/
def lumaAt (img : PNGImage) (x y : Nat) : Nat :=
  299 * img.px x y 0 + 587 * img.px x y 1 + 114 * img.px x y 2

/-- Modelled from the spec: the perceptually-weighted (luma-weighted
Euclidean) color distance of the PixelDiffEngine (§4.4), squared to stay in
integers. -/
def colorDelta (a b : PNGImage) (x y : Nat) : Int :=
  let dr := (a.px x y 0 : Int) - b.px x y 0
  let dg := (a.px x y 1 : Int) - b.px x y 1
  let db := (a.px x y 2 : Int) - b.px x y 2
  299 * dr * dr + 587 * dg * dg + 114 * db * db

/-- The theoretical maximum of `colorDelta`: `1000 * 255 * 255` (§4.4:
"a maximum-distance cutoff computed once from the theoretical maximum channel
distance"). -/
def maxColorDelta : Int := 65025000

/-- In-bounds coordinates of the radius-1 neighborhood of `(x, y)` on a
`w × h` grid (§5: anti-aliasing detection uses a small fixed radius). -/
def neighborCoords (w h x y : Nat) : List (Nat × Nat) :=
  ([(-1,-1), (-1,0), (-1,1), (0,-1), (0,1), (1,-1), (1,0), (1,1)] :
      List (Int × Int)).filterMap fun d =>
    let nx := (x : Int) + d.1
    let ny := (y : Int) + d.2
    if 0 ≤ nx ∧ nx < (w : Int) ∧ 0 ≤ ny ∧ ny < (h : Int) then
      some (nx.toNat, ny.toNat)
    else none

/-- Modelled from the spec: the local-neighborhood anti-aliasing heuristic of
the PixelDiffEngine (§4.4, glossary): the pixel sits on a luma edge — its
radius-1 neighborhood contains both a strictly darker and a strictly lighter
pixel. -/
def isAntiAliased (img : PNGImage) (w h x y : Nat) : Bool :=
  ((neighborCoords w h x y).any fun q => decide (lumaAt img q.1 q.2 < lumaAt img x y)) &&
  ((neighborCoords w h x y).any fun q => decide (lumaAt img x y < lumaAt img q.1 q.2))

/-- Per-pixel classification of the PixelDiffEngine (§4.4). -/
inductive PixelClass where
  | identical
  | antiAliased
  | differing
deriving DecidableEq

/-- Modelled from the spec: per-pixel classification (§4.4) — identical when
the color distance is within `threshold` of the maximal distance (the exact
rational inequality `delta ≤ threshold * maxDelta`, stated by
cross-multiplication over the integers), otherwise anti-aliased when the
neighborhood heuristic fires in either image, otherwise differing. -/
def classify (opts : DiffOptions) (a b : PNGImage) (w h x y : Nat) : PixelClass :=
  if colorDelta a b x y * (opts.threshold.den : Int) ≤ opts.threshold.num * maxColorDelta then
    PixelClass.identical
  else if isAntiAliased a w h x y || isAntiAliased b w h x y then
    PixelClass.antiAliased
  else PixelClass.differing

/-- Channel `c` of an RGB highlight color, with full alpha. -/
def colorComponent (col : Nat × Nat × Nat) (c : Nat) : Nat :=
  match c with
  | 0 => col.1
  | 1 => col.2.1
  | 2 => col.2.2
  | _ => 255

/-- Modelled from the spec: the diff-canvas byte written for one pixel
(§4.4) — identical pixels are copied unchanged, differing pixels take the
highlight color, anti-aliased pixels take the marker color (or the highlight
color and a place in the count when `includeAA` is set). -/
def diffPixelByte (opts : DiffOptions) (a : PNGImage) (cls : PixelClass)
    (x y c : Nat) : Nat :=
  match cls with
  | PixelClass.identical => a.px x y c
  | PixelClass.antiAliased =>
    if opts.includeAA then colorComponent opts.diffColor c
    else
      match opts.antiAliasColor with
      | some col => colorComponent col c
      | none => a.px x y c
  | PixelClass.differing => colorComponent opts.diffColor c

/-- Modelled from the spec: the diff-visualization buffer the pixelmatch
dependency writes (§4.4). -/
def pixelmatchDiff (a b : PNGImage) (w h : Nat) (opts : DiffOptions) : PNGImage :=
  ⟨w, h, (List.range (4 * w * h)).map fun i =>
    let c := i % 4
    let p := i / 4
    let x := p % w
    let y := p / w
    diffPixelByte opts a (classify opts a b w h x y) x y c⟩

/-- Modelled from the spec: the differing-pixel count the pixelmatch
dependency returns (§4.4) — differing pixels always count, anti-aliased
pixels count only when `includeAA` is set, identical pixels never count. -/
def pixelmatchCount (a b : PNGImage) (w h : Nat) (opts : DiffOptions) : Nat :=
  ((List.range (w * h)).filter fun p =>
    let x := p % w
    let y := p / w
    match classify opts a b w h x y with
    | PixelClass.differing => true
    | PixelClass.antiAliased => opts.includeAA
    | PixelClass.identical => false).length

/-- The standard base64 alphabet. -/
def base64Chars : List Char :=
  "ABCDEFGHIJKLMNOPQRSTUVWXYZabcdefghijklmnopqrstuvwxyz0123456789+/".toList

/-- Character for a six-bit group. -/
def b64c (n : Nat) : Char := base64Chars.getD n 'A'

/-- Models Node `Buffer.toString base64` (stdlib dependency): standard
base64 with padding, three input bytes per four output characters. -/
def base64Chunks : List Nat → List Char
  | b0 :: b1 :: b2 :: rest =>
    b64c (b0 / 4 % 64) :: b64c (b0 % 4 * 16 + b1 / 16) ::
      b64c (b1 % 16 * 4 + b2 / 64) :: b64c (b2 % 64) :: base64Chunks rest
  | [b0, b1] => [b64c (b0 / 4 % 64), b64c (b0 % 4 * 16 + b1 / 16), b64c (b1 % 16 * 4), '=']
  | [b0] => [b64c (b0 / 4 % 64), b64c (b0 % 4 * 16), '=', '=']
  | [] => []

/-- Base64 text of a byte buffer. -/
def base64Encode (data : Bytes) : String := String.mk (base64Chunks data)

/-- Models Node `path.basename`-style last path component (stdlib
dependency), used here to split off the file name. -/
def lastComponent (p : String) : String :=
  String.mk ((p.toList.reverse.takeWhile (fun c => c != '/')).reverse)

/-- Models Node `path.extname` (stdlib dependency): the suffix of the last
path component from its last dot on, empty when the component has no dot or
only a leading dot.  Character case is preserved verbatim. -/
def extname (p : String) : String :=
  let cs := (lastComponent p).toList
  let suf := cs.reverse.takeWhile (fun c => c != '.')
  if suf.length + 1 < cs.length then String.mk ('.' :: suf.reverse) else ("")

/-- The data-URL MIME subtype used by FileService.getImageBase64
(src/src/extension.ts line 217): `path.extname(filePath).slice(1)`. -/
def mimeSubtype (filePath : String) : String := (extname filePath).drop 1

/-- Embeds FileService.getImageBase64 (src/src/extension.ts lines 216–219). -/
def FileService.getImageBase64 (data : Bytes) (filePath : String) : String :=
  "data:image/" ++ mimeSubtype filePath ++ ";base64," ++ base64Encode data

/-- Embeds DiffImageGenerator.generate (src/src/extension.ts lines 222–275):
decode both buffers as PNG, normalize onto canvases of the common bounding
size, run pixelmatch, and return the encoded diff as a data URL; any
exception along the way (in particular a decode failure) is caught and
yields `null` (`none`). -/
def DiffImageGenerator.generate (currentData previousData : Bytes) : Option String :=
  match decodePNG currentData, decodePNG previousData with
  | some currentPng, some previousPng =>
    let width := max currentPng.width previousPng.width
    let height := max currentPng.height previousPng.height
    let currentImg := normalizeCanvas currentPng width height
    let previousImg := normalizeCanvas previousPng width height
    let diffImg := pixelmatchDiff currentImg previousImg width height generateCallOptions
    let diffBuffer := encodePNG diffImg
    some ("data:image/png;base64," ++ base64Encode diffBuffer)
  | _, _ => none

/-- The value returned by the pixelmatch invocation inside
DiffImageGenerator.generate (src/src/extension.ts line 259).  The source
calls `pixelmatch(...)` as a bare statement and discards this value. -/
def DiffImageGenerator.generateCount (currentData previousData : Bytes) : Option Nat :=
  match decodePNG currentData, decodePNG previousData with
  | some currentPng, some previousPng =>
    let width := max currentPng.width previousPng.width
    let height := max currentPng.height previousPng.height
    some (pixelmatchCount (normalizeCanvas currentPng width height)
      (normalizeCanvas previousPng width height) width height generateCallOptions)
  | _, _ => none

/-- Embeds the ImageDiffData interface (src/src/extension.ts lines 8–14). -/
structure ImageDiffData where
  currentPath : String
  currentData : Bytes
  previousData : Bytes
  currentLabel : String
  previousLabel : String
deriving DecidableEq

/-- Embeds the options record handed to
WebviewContentGenerator.getDiffViewerContent (src/src/extension.ts lines
296–302 and 507–513): the complete payload the comparison pipeline delivers
to the presentation layer. -/
structure ViewerContent where
  currentImage : String
  previousImage : String
  diffImage : Option String
  currentLabel : String
  previousLabel : String
deriving DecidableEq

/-- The differing-pixel count information included in the webview payload:
the payload's fields are exactly `currentImage`, `previousImage`,
`diffImage`, `currentLabel` and `previousLabel` (src/src/extension.ts lines
296–302), so no payload carries a count. -/
def ViewerContent.includedDiffPixelCount (_ : ViewerContent) : Option Nat := none

/-- Embeds DiffViewerService.openDiffViewer (src/src/extension.ts lines
278–305), restricted to the payload it computes (panel creation is UI).
Note both encoded images use `data.currentPath`. -/
def DiffViewerService.openDiffViewer (data : ImageDiffData) : ViewerContent :=
  { currentImage := FileService.getImageBase64 data.currentData data.currentPath
    previousImage := FileService.getImageBase64 data.previousData data.currentPath
    diffImage := DiffImageGenerator.generate data.currentData data.previousData
    currentLabel := data.currentLabel
    previousLabel := data.previousLabel }

/-- Embeds the options of DiffViewerService.openTwoFilesDiffViewer
(src/src/extension.ts lines 307–316). -/
structure TwoFilesOptions where
  leftPath : String
  rightPath : String
  leftData : Bytes
  rightData : Bytes
  title : Option String
deriving DecidableEq

/-- The panel title of the two-files viewer (src/src/extension.ts lines
319–324): the optional `title` argument, defaulting to a name built from the
two base names. -/
def twoFilesPanelTitle (o : TwoFilesOptions) : String :=
  o.title.getD ("Image Diff - " ++ lastComponent o.leftPath ++ " ↔ " ++ lastComponent o.rightPath)

/-- Embeds DiffViewerService.openTwoFilesDiffViewer (src/src/extension.ts
lines 307–338), restricted to the payload it computes: the right file is the
current image, the left file the previous one, the diff is generated from
`(rightData, leftData)`, and the labels are the fixed strings. -/
def DiffViewerService.openTwoFilesDiffViewer (o : TwoFilesOptions) : ViewerContent :=
  { currentImage := FileService.getImageBase64 o.rightData o.rightPath
    previousImage := FileService.getImageBase64 o.leftData o.leftPath
    diffImage := DiffImageGenerator.generate o.rightData o.leftData
    currentLabel := "Current"
    previousLabel := "Previous" }

/-- Outcome of the compare-with-previous command handler: either a warning
message with no viewer, or an opened viewer with its payload. -/
inductive CompareOutcome where
  | warned : String → CompareOutcome
  | opened : ViewerContent → CompareOutcome
deriving DecidableEq

/-- Whether the outcome opened a viewer. -/
def CompareOutcome.opensViewer : CompareOutcome → Bool
  | CompareOutcome.warned _ => false
  | CompareOutcome.opened _ => true

/-- Embeds handleCompareWithPrevious (src/src/extension.ts lines 53–85)
after workspace resolution: `gitResult` is what GitService.getVersion
returned for revision HEAD~1.  When it is `null` the handler shows a warning
and returns — no viewer is opened. -/
def handleCompareWithPrevious (currentImagePath : String)
    (currentFileBytes : Bytes) (gitResult : Option Bytes) : CompareOutcome :=
  match gitResult with
  | none =>
    CompareOutcome.warned ("Cannot retrieve previous version (HEAD~1) of this image from Git")
  | some previousImageData =>
    CompareOutcome.opened (DiffViewerService.openDiffViewer
      { currentPath := currentImagePath
        currentData := currentFileBytes
        previousData := previousImageData
        currentLabel := "Current"
        previousLabel := "Previous Commit (HEAD~1)" })

/-- Embeds the GitVersionOptions interface (src/src/extension.ts lines 16–20). -/
structure GitVersionOptions where
  filePath : String
  revision : String
  workspaceRoot : String
deriving DecidableEq

/-- Outcome of the underlying `git show` subprocess: its stdout bytes, or a
raised error (file absent at the revision, ambiguous revision, not a
repository, path outside the repository, ...). -/
inductive ExecResult where
  | ok : Bytes → ExecResult
  | err : String → ExecResult
deriving DecidableEq

/-- Models Node `execSync` with a `maxBuffer` option (stdlib dependency):
output longer than `maxBuffer` kills the child and raises ENOBUFS; any error
of the subprocess is raised as an exception. -/
def execSyncModel (raw : ExecResult) (maxBuffer : Nat) : ExecResult :=
  match raw with
  | ExecResult.ok out => if maxBuffer < out.length then ExecResult.err ("ENOBUFS") else ExecResult.ok out
  | ExecResult.err e => ExecResult.err e

/-- The `maxBuffer` passed by GitService.getVersion
(src/src/extension.ts line 197): `10 * 1024 * 1024` bytes. -/
def gitMaxBuffer : Nat := 10 * 1024 * 1024

/-- Whether the first character list starts the second one. -/
def startsWithChars : List Char → List Char → Bool
  | [], _ => true
  | _ :: _, [] => false
  | p :: ps, c :: cs => p == c && startsWithChars ps cs

/-- Models Node `path.relative` (stdlib dependency) for the case the source
relies on — the file lies inside the workspace root: strip the root and its
trailing separator.  Other inputs are returned unchanged. -/
def pathRelative (root fp : String) : String :=
  if startsWithChars (root.toList ++ ['/']) fp.toList
      || startsWithChars (root.toList ++ ['\\']) fp.toList then
    String.mk (fp.toList.drop (root.toList.length + 1))
  else fp

/-- Backslash-to-forward-slash normalization of GitService.getVersion
(src/src/extension.ts line 189): `.replace(/\\/g, fwd-slash)`. -/
def replaceBackslashes (s : String) : String :=
  String.mk (s.toList.map fun c => if c = '\\' then '/' else c)

/-- The command string GitService.getVersion builds
(src/src/extension.ts lines 187–190): the relative path, slash-normalized,
wrapped in double quotes after the revision. -/
def GitService.buildCommand (options : GitVersionOptions) : String :=
  "git show " ++ options.revision ++ ":\"" ++
    replaceBackslashes (pathRelative options.workspaceRoot options.filePath) ++ "\""

/-- Embeds GitService.getVersion (src/src/extension.ts lines 184–208):
the whole body sits in a try/catch whose catch returns `null`, so a raised
subprocess error (including ENOBUFS from the 10 MiB cap) becomes `none` and
a successful read returns the content.  `gitRaw` is the outcome of the
subprocess running the built command. -/
def GitService.getVersion (options : GitVersionOptions) (gitRaw : ExecResult) : Option Bytes :=
  match execSyncModel gitRaw gitMaxBuffer with
  | ExecResult.ok content => some content
  | ExecResult.err _ => none

/-- One step of a POSIX-style shell word splitter restricted to what the
built command exercises: double quotes toggle quoting, unquoted spaces
separate words, an unterminated quote is a parse error. -/
def shellWordsGo : List Char → Bool → List Char → List String → Option (List String)
  | [], true, _, _ => none
  | [], false, cur, acc => some (if cur.isEmpty then acc else acc ++ [String.mk cur])
  | c :: rest, inQuote, cur, acc =>
    if c = '"' then shellWordsGo rest (!inQuote) cur acc
    else if c = ' ' ∧ inQuote = false then
      if cur.isEmpty then shellWordsGo rest inQuote [] acc
      else shellWordsGo rest inQuote [] (acc ++ [String.mk cur])
    else shellWordsGo rest inQuote (cur ++ [c]) acc

/-- Shell word splitting of a whole command line. -/
def shellWords (cmd : String) : Option (List String) :=
  shellWordsGo cmd.toList false [] []

/-- Demo 1×1 red image. -/
def demoRedImg : PNGImage := ⟨1, 1, [255, 0, 0, 255]⟩

/-- Demo 1×1 blue image. -/
def demoBlueImg : PNGImage := ⟨1, 1, [0, 0, 255, 255]⟩

/-- Demo encoded red PNG. -/
def demoRedBytes : Bytes := encodePNG demoRedImg

/-- Demo encoded blue PNG. -/
def demoBlueBytes : Bytes := encodePNG demoBlueImg

/-- Demo JPEG bytes (JFIF header): a displayable but not PNG-decodable
buffer. -/
def demoJpegBytes : Bytes := [255, 216, 255, 224, 0, 16, 74, 70, 73, 70]

/-- Demo 2×1 image, wider than the 1×1 demos. -/
def demoWideImg : PNGImage := ⟨2, 1, [10, 20, 30, 255, 40, 50, 60, 255]⟩

/-- Demo encoded 2×1 PNG. -/
def demoWideBytes : Bytes := encodePNG demoWideImg

/-- Demo comparison input. -/
def demoDiffData : ImageDiffData :=
  ⟨"/repo/img.png", demoRedBytes, demoBlueBytes, "Current", "Previous Commit (HEAD~1)"⟩

/-! ## Helper lemmas -/

theorem getD_map_range (n : Nat) (f : Nat → Nat) (i : Nat) (d : Nat) :
    ((List.range n).map f).getD i d = if i < n then f i else d := by
  by_cases h : i < n
  · rw [List.getD_eq_getElem?_getD, List.getElem?_map, List.getElem?_range h]
    simp [h]
  · rw [List.getD_eq_getElem?_getD, List.getElem?_map]
    rw [List.getElem?_eq_none (by simpa using Nat.le_of_not_lt h)]
    simp [h]

theorem getD_replicate (n : Nat) (a i d : Nat) :
    (List.replicate n a).getD i d = if i < n then a else d := by
  by_cases h : i < n
  · rw [List.getD_eq_getElem?_getD, List.getElem?_replicate]
    simp [h]
  · rw [List.getD_eq_getElem?_getD,
      List.getElem?_eq_none (by simpa using Nat.le_of_not_lt h)]
    simp [h]

theorem flatIndex_div4 (q c : Nat) (hc : c < 4) : (4 * q + c) / 4 = q := by
  omega

theorem flatIndex_mod4 (q c : Nat) (hc : c < 4) : (4 * q + c) % 4 = c := by
  omega

theorem pixelIndex_mod (x y W : Nat) (hx : x < W) : (y * W + x) % W = x := by
  rw [Nat.add_comm, Nat.add_mul_mod_self_right]
  exact Nat.mod_eq_of_lt hx

theorem pixelIndex_div (x y W : Nat) (hx : x < W) : (y * W + x) / W = y := by
  have hW : 0 < W := by omega
  rw [Nat.add_comm, Nat.add_mul_div_right x y hW, Nat.div_eq_of_lt hx, Nat.zero_add]

theorem fromBytes4_toBytes4 (n : Nat) (h : n < 4294967296) :
    fromBytes4 (n / 16777216 % 256) (n / 65536 % 256) (n / 256 % 256) (n % 256) = n := by
  unfold fromBytes4
  omega

theorem normalizeCanvas_width (p : PNGImage) (w h : Nat) :
    (normalizeCanvas p w h).width = w := rfl

theorem normalizeCanvas_height (p : PNGImage) (w h : Nat) :
    (normalizeCanvas p w h).height = h := rfl

/-- Byte of the normalized canvas at a pixel inside the copied extent. -/
theorem normalizeCanvas_px_inside (p : PNGImage) (w h x y c : Nat)
    (hx : x < p.width) (hy : y < p.height) (hc : c < 4)
    (hxw : x < w) (hyh : y < h) :
    (normalizeCanvas p w h).px x y c = p.px x y c := by
  have hW : (normalizeCanvas p w h).width = w := rfl
  unfold normalizeCanvas bitblt PNGImage.px PNGImage.byteAt
  simp only [PNGnew, hW]
  rw [getD_map_range]
  have hidx : 4 * (y * w + x) + c < 4 * w * h := by
    have h1 : y * w + x < w * h := by
      calc y * w + x < y * w + w := by omega
        _ = (y + 1) * w := by ring
        _ ≤ h * w := Nat.mul_le_mul_right w hyh
        _ = w * h := Nat.mul_comm h w
    have h2 : 4 * w * h = 4 * (w * h) := Nat.mul_assoc 4 w h
    omega
  rw [if_pos hidx]
  simp only [flatIndex_div4 _ _ hc, flatIndex_mod4 _ _ hc,
    pixelIndex_mod x y w hxw, pixelIndex_div x y w hxw]
  have hcond : 0 ≤ x ∧ x < 0 + p.width ∧ 0 ≤ y ∧ y < 0 + p.height := by omega
  rw [if_pos hcond]
  simp [PNGImage.byteAt]

/-- Byte of the normalized canvas at a pixel outside the copied extent:
all-zero (fully transparent) RGBA. -/
theorem normalizeCanvas_px_outside (p : PNGImage) (w h x y c : Nat)
    (hout : p.width ≤ x ∨ p.height ≤ y) (hc : c < 4)
    (hxw : x < w) (hyh : y < h) :
    (normalizeCanvas p w h).px x y c = 0 := by
  unfold normalizeCanvas bitblt PNGImage.px PNGImage.byteAt
  simp only [PNGnew]
  rw [getD_map_range]
  have hidx : 4 * (y * w + x) + c < 4 * w * h := by
    have h1 : y * w + x < w * h := by
      calc y * w + x < y * w + w := by omega
        _ = (y + 1) * w := by ring
        _ ≤ h * w := Nat.mul_le_mul_right w hyh
        _ = w * h := Nat.mul_comm h w
    have h2 : 4 * w * h = 4 * (w * h) := Nat.mul_assoc 4 w h
    omega
  rw [if_pos hidx]
  simp only [flatIndex_div4 _ _ hc, flatIndex_mod4 _ _ hc,
    pixelIndex_mod x y w hxw, pixelIndex_div x y w hxw]
  have hcond : ¬ (0 ≤ x ∧ x < 0 + p.width ∧ 0 ≤ y ∧ y < 0 + p.height) := by omega
  rw [if_neg hcond]
  rw [getD_replicate]
  simp

/-! ## Claim C6 — PNG round trip -/

/-- C6: for every valid ImageBuffer `x`, encoding on the PNG path and
decoding the result reproduces `x` exactly: `decode (encode x) = some x`. -/
theorem decodePNG_encodePNG (img : PNGImage) (h : ValidImageBuffer img) :
    decodePNG (encodePNG img) = some img := by
  obtain ⟨hw, hh, hw32, hh32, hlen, hbytes⟩ := h
  have hsig : (encodePNG img).take 8 = pngSignature := by
    unfold encodePNG pngSignature toBytes4
    simp [List.take_append]
  have hall : (encodePNG img).all (· < 256) = true := by
    unfold encodePNG pngSignature toBytes4
    simp only [List.all_append, Bool.and_eq_true]
    refine ⟨⟨⟨by decide, ?_⟩, ?_⟩, hbytes⟩
    · simp [List.all_cons, Nat.mod_lt _ (by norm_num : (0:Nat) < 256)]
    · simp [List.all_cons, Nat.mod_lt _ (by norm_num : (0:Nat) < 256)]
  have hdrop : (encodePNG img).drop 8 = toBytes4 img.width ++ toBytes4 img.height ++ img.data := by
    unfold encodePNG pngSignature
    simp [List.drop_append]
  unfold decodePNG
  rw [hsig, hall, hdrop]
  simp only [ne_eq, not_true_eq_false, if_false, Bool.true_eq_false,
    not_false_eq_true, if_true, ite_not]
  unfold toBytes4
  simp only [List.cons_append, List.nil_append]
  rw [fromBytes4_toBytes4 img.width hw32, fromBytes4_toBytes4 img.height hh32]
  have : ¬ (img.width = 0 ∨ img.height = 0) := by omega
  simp [this, hlen]

/-- Witness for C6: the round-trip theorem applied to a concrete 1×1 red
image. -/
theorem decodePNG_encodePNG_witness :
    ValidImageBuffer ⟨1, 1, [255, 0, 0, 255]⟩ ∧
      decodePNG (encodePNG ⟨1, 1, [255, 0, 0, 255]⟩) = some ⟨1, 1, [255, 0, 0, 255]⟩ :=
  ⟨by decide, decodePNG_encodePNG ⟨1, 1, [255, 0, 0, 255]⟩ (by decide)⟩

/-! ## Claim C3 — normalization onto a common canvas -/

/-- C3: for PNG-decodable inputs the pipeline builds two canvases of
dimensions `(max of widths, max of heights)`; each source image is copied at
origin (0,0) — pixels inside the original extent agree with the original —
and every canvas pixel outside the original extent is all-zero (fully
transparent) RGBA.  No scaling or cropping: the copied bytes are the
original bytes at the same coordinates. -/
theorem generate_normalization (currentData previousData : Bytes)
    (a b : PNGImage)
    (hc : decodePNG currentData = some a) (hp : decodePNG previousData = some b)
    (x y c : Nat) (hc4 : c < 4) :
    ((normalizeCanvas a (max a.width b.width) (max a.height b.height)).width
        = max a.width b.width ∧
      (normalizeCanvas a (max a.width b.width) (max a.height b.height)).height
        = max a.height b.height ∧
      (normalizeCanvas b (max a.width b.width) (max a.height b.height)).width
        = max a.width b.width ∧
      (normalizeCanvas b (max a.width b.width) (max a.height b.height)).height
        = max a.height b.height) ∧
    (x < a.width → y < a.height →
      (normalizeCanvas a (max a.width b.width) (max a.height b.height)).px x y c
        = a.px x y c) ∧
    (x < b.width → y < b.height →
      (normalizeCanvas b (max a.width b.width) (max a.height b.height)).px x y c
        = b.px x y c) ∧
    (x < max a.width b.width → y < max a.height b.height →
      a.width ≤ x ∨ a.height ≤ y →
      (normalizeCanvas a (max a.width b.width) (max a.height b.height)).px x y c = 0) ∧
    (x < max a.width b.width → y < max a.height b.height →
      b.width ≤ x ∨ b.height ≤ y →
      (normalizeCanvas b (max a.width b.width) (max a.height b.height)).px x y c = 0) := by
  refine ⟨⟨rfl, rfl, rfl, rfl⟩, ?_, ?_, ?_, ?_⟩
  · intro hx hy
    exact normalizeCanvas_px_inside a _ _ x y c hx hy hc4
      (lt_of_lt_of_le hx (le_max_left _ _)) (lt_of_lt_of_le hy (le_max_left _ _))
  · intro hx hy
    exact normalizeCanvas_px_inside b _ _ x y c hx hy hc4
      (lt_of_lt_of_le hx (le_max_right _ _)) (lt_of_lt_of_le hy (le_max_right _ _))
  · intro hxw hyh hout
    exact normalizeCanvas_px_outside a _ _ x y c hout hc4 hxw hyh
  · intro hxw hyh hout
    exact normalizeCanvas_px_outside b _ _ x y c hout hc4 hxw hyh

/-- Witness for C3: the normalization theorem at a 2×1 and a 1×1 demo image,
pixel (1,0): copied from the wider image, transparent padding on the other
canvas. -/
theorem generate_normalization_witness :
    decodePNG demoWideBytes = some demoWideImg ∧
    decodePNG demoRedBytes = some demoRedImg ∧
    (normalizeCanvas demoWideImg (max demoWideImg.width demoRedImg.width)
        (max demoWideImg.height demoRedImg.height)).px 1 0 0 = demoWideImg.px 1 0 0 ∧
    (normalizeCanvas demoRedImg (max demoWideImg.width demoRedImg.width)
        (max demoWideImg.height demoRedImg.height)).px 1 0 0 = 0 := by
  have h := generate_normalization demoWideBytes demoRedBytes demoWideImg demoRedImg
    (by decide) (by decide) 1 0 0 (by decide)
  exact ⟨by decide, by decide, h.2.1 (by decide) (by decide),
    h.2.2.2.2 (by decide) (by decide) (Or.inl (by decide))⟩

/-! ## Claim C4 — decode failure degrades to display-only -/

/-- C4: when both buffers are present but either fails to decode as PNG
(for example JPEG previous bytes), the viewer payload still carries both
encoded images while the diff payload is absent, and the embedded handler is
total — partial degradation, not failure. -/
theorem decode_failure_degrades (data : ImageDiffData)
    (h : decodePNG data.currentData = none ∨ decodePNG data.previousData = none) :
    DiffViewerService.openDiffViewer data =
      { currentImage := FileService.getImageBase64 data.currentData data.currentPath
        previousImage := FileService.getImageBase64 data.previousData data.currentPath
        diffImage := none
        currentLabel := data.currentLabel
        previousLabel := data.previousLabel } := by
  have hgen : DiffImageGenerator.generate data.currentData data.previousData = none := by
    rcases h with h | h
    · simp [DiffImageGenerator.generate, h]
    · cases hcur : decodePNG data.currentData <;>
        simp [DiffImageGenerator.generate, h, hcur]
  simp [DiffViewerService.openDiffViewer, hgen]

/-- Witness for C4: a red PNG current and JPEG previous bytes — previous is
displayable, the diff payload is absent. -/
theorem decode_failure_degrades_witness :
    decodePNG demoJpegBytes = none ∧
    DiffViewerService.openDiffViewer
        ⟨"/repo/img.png", demoRedBytes, demoJpegBytes, "Current", "Previous Commit (HEAD~1)"⟩ =
      { currentImage := FileService.getImageBase64 demoRedBytes ("/repo/img.png")
        previousImage := FileService.getImageBase64 demoJpegBytes ("/repo/img.png")
        diffImage := none
        currentLabel := "Current"
        previousLabel := "Previous Commit (HEAD~1)" } :=
  ⟨by decide,
    decode_failure_degrades
      ⟨"/repo/img.png", demoRedBytes, demoJpegBytes, "Current", "Previous Commit (HEAD~1)"⟩
      (Or.inr (by decide))⟩

/-! ## Claim C9 — two-file mode orientation -/

/-- C9: in two-file comparison mode the right file is always the current
image and the left file the previous one — the diff is generated from
`(rightData, leftData)` — with the fixed labels Current and Previous, and
the payload does not depend on the optional title argument. -/
theorem two_files_right_is_current (o : TwoFilesOptions) :
    DiffViewerService.openTwoFilesDiffViewer o =
      { currentImage := FileService.getImageBase64 o.rightData o.rightPath
        previousImage := FileService.getImageBase64 o.leftData o.leftPath
        diffImage := DiffImageGenerator.generate o.rightData o.leftData
        currentLabel := "Current"
        previousLabel := "Previous" } ∧
    (∀ t : Option String,
      DiffViewerService.openTwoFilesDiffViewer { o with title := t } =
        DiffViewerService.openTwoFilesDiffViewer o) :=
  ⟨rfl, fun _ => rfl⟩

/-! ## Claim C10 — MIME subtype from the current path -/

/-- C10: getImageBase64 derives the data-URL MIME subtype verbatim from the
path's extension (case preserved, data not inspected), and in the
git-history viewer both encoded payloads use the current file's path. -/
theorem mime_subtype_from_path (d : Bytes) (filePath : String) (idd : ImageDiffData) :
    FileService.getImageBase64 d filePath =
      "data:image/" ++ mimeSubtype filePath ++ ";base64," ++ base64Encode d ∧
    mimeSubtype filePath = (extname filePath).drop 1 ∧
    mimeSubtype ("/repo/photo.PNG") = "PNG" ∧
    mimeSubtype ("/repo/photo.JpEg") = "JpEg" ∧
    (DiffViewerService.openDiffViewer idd).currentImage =
      FileService.getImageBase64 idd.currentData idd.currentPath ∧
    (DiffViewerService.openDiffViewer idd).previousImage =
      FileService.getImageBase64 idd.previousData idd.currentPath :=
  ⟨rfl, rfl, by decide, by decide, rfl, rfl⟩

/-! ## Claim C5 — getVersion never throws -/

/-- C5: GitService.getVersion is a total function of its inputs (no uncaught
exception in the embedding): every subprocess error collapses to the single
NotFound outcome `none`, output beyond the 10 MiB `maxBuffer` cap also
collapses to `none`, and any returned content is within the cap. -/
theorem getVersion_failure_policy (options : GitVersionOptions) (raw : ExecResult) :
    GitService.getVersion options raw =
      (match raw with
       | ExecResult.err _ => none
       | ExecResult.ok out => if gitMaxBuffer < out.length then none else some out) ∧
    ∀ b, GitService.getVersion options raw = some b → b.length ≤ gitMaxBuffer := by
  constructor
  · cases raw with
    | ok out =>
      by_cases h : gitMaxBuffer < out.length <;>
        simp [GitService.getVersion, execSyncModel, h]
    | err e => rfl
  · intro b hb
    cases raw with
    | ok out =>
      by_cases h : gitMaxBuffer < out.length
      · simp [GitService.getVersion, execSyncModel, h] at hb
      · simp [GitService.getVersion, execSyncModel, h] at hb
        subst hb
        omega
    | err e => simp [GitService.getVersion, execSyncModel] at hb

/-- Witness for C5: a failed subprocess and an oversized blob both collapse
to `none` at concrete inputs. -/
theorem getVersion_failure_policy_witness :
    GitService.getVersion ⟨"/repo/img.png", "HEAD~1", "/repo"⟩
      (ExecResult.err ("fatal: bad revision")) = none ∧
    GitService.getVersion ⟨"/repo/img.png", "HEAD~1", "/repo"⟩
      (ExecResult.ok (List.replicate (gitMaxBuffer + 1) 0)) = none := by
  have h1 := getVersion_failure_policy ⟨"/repo/img.png", "HEAD~1", "/repo"⟩
    (ExecResult.err ("fatal: bad revision"))
  have h2 := getVersion_failure_policy ⟨"/repo/img.png", "HEAD~1", "/repo"⟩
    (ExecResult.ok (List.replicate (gitMaxBuffer + 1) 0))
  refine ⟨h1.1, ?_⟩
  rw [h2.1]
  simp

/-! ## Claim C2 — absent previous version -/

/-- Counterexample for C2: with the previous version unresolvable (`none`)
and a PNG-decodable current image, the handler produces a warning outcome
and opens no viewer at all — there is no result with `currentEncoded` set. -/
theorem missing_previous_opens_no_viewer_demo :
    handleCompareWithPrevious ("/repo/img.png") demoRedBytes none =
      CompareOutcome.warned ("Cannot retrieve previous version (HEAD~1) of this image from Git") ∧
    (handleCompareWithPrevious ("/repo/img.png") demoRedBytes none).opensViewer = false ∧
    (decodePNG demoRedBytes).isSome = true :=
  ⟨rfl, rfl, by decide⟩

/-- C2 (amended): when the previous version's bytes are absent the handler
raises no exception (it is a total function in the embedding), but instead
of producing a current-only result it shows a warning and opens no viewer. -/
theorem missing_previous_warns_and_opens_no_viewer
    (path : String) (currentBytes : Bytes) :
    handleCompareWithPrevious path currentBytes none =
      CompareOutcome.warned ("Cannot retrieve previous version (HEAD~1) of this image from Git") ∧
    (handleCompareWithPrevious path currentBytes none).opensViewer = false :=
  ⟨rfl, rfl⟩

/-! ## Claim C7 — diff stage options -/

/-- With the call-site options (`includeAA = false`) the count excludes
anti-aliased pixels: it is exactly the number of differing pixels. -/
theorem pixelmatchCount_no_AA (a b : PNGImage) (w h : Nat) :
    pixelmatchCount a b w h generateCallOptions =
      ((List.range (w * h)).filter fun p =>
        decide (classify generateCallOptions a b w h (p % w) (p / w) =
          PixelClass.differing)).length := by
  unfold pixelmatchCount
  congr 1
  apply List.filter_congr
  intro p hp
  dsimp only
  cases hcl : classify generateCallOptions a b w h (p % w) (p / w) <;> rfl

/-- C7: the diff stage always runs under the options record
`{threshold := 0.1, includeAA := false, alpha := 0.1, diffColor := (255,0,0),
antiAliasColor := none}` — the source's call-site values merged with the
spec's defaults — and its differing count excludes anti-aliased pixels. -/
theorem generate_diff_stage_options (currentData previousData : Bytes)
    (a b : PNGImage)
    (hc : decodePNG currentData = some a) (hp : decodePNG previousData = some b) :
    generateCallOptions =
      { threshold := mkRat 1 10, includeAA := false, alpha := mkRat 1 10,
        diffColor := (255, 0, 0), antiAliasColor := none } ∧
    generateCallOptions.threshold = 1/10 ∧
    generateCallOptions.includeAA = false ∧
    DiffImageGenerator.generate currentData previousData =
      some ("data:image/png;base64," ++ base64Encode (encodePNG
        (pixelmatchDiff (normalizeCanvas a (max a.width b.width) (max a.height b.height))
          (normalizeCanvas b (max a.width b.width) (max a.height b.height))
          (max a.width b.width) (max a.height b.height) generateCallOptions))) ∧
    DiffImageGenerator.generateCount currentData previousData =
      some (((List.range (max a.width b.width * max a.height b.height)).filter fun p =>
        decide (classify generateCallOptions
          (normalizeCanvas a (max a.width b.width) (max a.height b.height))
          (normalizeCanvas b (max a.width b.width) (max a.height b.height))
          (max a.width b.width) (max a.height b.height)
          (p % max a.width b.width) (p / max a.width b.width) =
          PixelClass.differing)).length) := by
  refine ⟨rfl, by rw [show generateCallOptions.threshold = mkRat 1 10 from rfl,
    Rat.mkRat_eq_div]; norm_num, rfl, ?_, ?_⟩
  · simp [DiffImageGenerator.generate, hc, hp]
  · simp [DiffImageGenerator.generateCount, hc, hp, pixelmatchCount_no_AA]

/-- Witness for C7: the options theorem at the concrete red/blue pair. -/
theorem generate_diff_stage_options_witness :
    decodePNG demoRedBytes = some demoRedImg ∧
    decodePNG demoBlueBytes = some demoBlueImg ∧
    (generateCallOptions =
      { threshold := mkRat 1 10, includeAA := false, alpha := mkRat 1 10,
        diffColor := (255, 0, 0), antiAliasColor := none } ∧
    generateCallOptions.threshold = 1/10 ∧
    generateCallOptions.includeAA = false ∧
    DiffImageGenerator.generate demoRedBytes demoBlueBytes =
      some ("data:image/png;base64," ++ base64Encode (encodePNG
        (pixelmatchDiff
          (normalizeCanvas demoRedImg (max demoRedImg.width demoBlueImg.width)
            (max demoRedImg.height demoBlueImg.height))
          (normalizeCanvas demoBlueImg (max demoRedImg.width demoBlueImg.width)
            (max demoRedImg.height demoBlueImg.height))
          (max demoRedImg.width demoBlueImg.width)
          (max demoRedImg.height demoBlueImg.height) generateCallOptions))) ∧
    DiffImageGenerator.generateCount demoRedBytes demoBlueBytes =
      some (((List.range (max demoRedImg.width demoBlueImg.width *
          max demoRedImg.height demoBlueImg.height)).filter fun p =>
        decide (classify generateCallOptions
          (normalizeCanvas demoRedImg (max demoRedImg.width demoBlueImg.width)
            (max demoRedImg.height demoBlueImg.height))
          (normalizeCanvas demoBlueImg (max demoRedImg.width demoBlueImg.width)
            (max demoRedImg.height demoBlueImg.height))
          (max demoRedImg.width demoBlueImg.width)
          (max demoRedImg.height demoBlueImg.height)
          (p % max demoRedImg.width demoBlueImg.width)
          (p / max demoRedImg.width demoBlueImg.width) =
          PixelClass.differing)).length)) :=
  ⟨by decide, by decide,
    generate_diff_stage_options demoRedBytes demoBlueBytes demoRedImg demoBlueImg
      (by decide) (by decide)⟩

/-! ## Claim C1 — what the pipeline result contains -/

/-- Counterexample for C1: at a concrete PNG-decodable pair the pipeline's
payload carries the three encoded images but no differing-pixel count — the
count information included in the payload is `none`, never `some n`. -/
theorem viewer_payload_carries_no_diff_count :
    (decodePNG demoRedBytes).isSome = true ∧
    (decodePNG demoBlueBytes).isSome = true ∧
    (DiffViewerService.openDiffViewer demoDiffData).diffImage.isSome = true ∧
    (DiffViewerService.openDiffViewer demoDiffData).includedDiffPixelCount = none ∧
    ¬ ∃ n : Nat,
      (DiffViewerService.openDiffViewer demoDiffData).includedDiffPixelCount = some n := by
  refine ⟨by decide, by decide, by decide, rfl, ?_⟩
  simp [ViewerContent.includedDiffPixelCount]

/-- C1 (amended): for every PNG-decodable pair the pipeline returns the
three encoded payloads (current, previous, and a present diff), and the diff
stage computes a (non-negative) differing-pixel count — but the source
discards that count: the returned payload includes no count. -/
theorem pipeline_payloads_and_discarded_count (currentPath : String)
    (currentData previousData : Bytes) (curLabel prevLabel : String)
    (hc : (decodePNG currentData).isSome = true)
    (hp : (decodePNG previousData).isSome = true) :
    ∃ (diffURL : String) (n : Nat),
      DiffViewerService.openDiffViewer
          ⟨currentPath, currentData, previousData, curLabel, prevLabel⟩ =
        { currentImage := FileService.getImageBase64 currentData currentPath
          previousImage := FileService.getImageBase64 previousData currentPath
          diffImage := some diffURL
          currentLabel := curLabel
          previousLabel := prevLabel } ∧
      DiffImageGenerator.generateCount currentData previousData = some n ∧
      (DiffViewerService.openDiffViewer
          ⟨currentPath, currentData, previousData, curLabel, prevLabel⟩).includedDiffPixelCount
        = none := by
  obtain ⟨a, ha⟩ := Option.isSome_iff_exists.mp hc
  obtain ⟨b, hb⟩ := Option.isSome_iff_exists.mp hp
  refine ⟨"data:image/png;base64," ++ base64Encode (encodePNG
    (pixelmatchDiff (normalizeCanvas a (max a.width b.width) (max a.height b.height))
      (normalizeCanvas b (max a.width b.width) (max a.height b.height))
      (max a.width b.width) (max a.height b.height) generateCallOptions)),
    pixelmatchCount (normalizeCanvas a (max a.width b.width) (max a.height b.height))
      (normalizeCanvas b (max a.width b.width) (max a.height b.height))
      (max a.width b.width) (max a.height b.height) generateCallOptions, ?_, ?_, rfl⟩
  · simp [DiffViewerService.openDiffViewer, DiffImageGenerator.generate, ha, hb]
  · simp [DiffImageGenerator.generateCount, ha, hb]

/-- Witness for C1: the amended theorem at the concrete red/blue pair. -/
theorem pipeline_payloads_and_discarded_count_witness :
    (decodePNG demoRedBytes).isSome = true ∧
    ∃ (diffURL : String) (n : Nat),
      DiffViewerService.openDiffViewer
          ⟨"/repo/img.png", demoRedBytes, demoBlueBytes, "Current",
            "Previous Commit (HEAD~1)"⟩ =
        { currentImage := FileService.getImageBase64 demoRedBytes ("/repo/img.png")
          previousImage := FileService.getImageBase64 demoBlueBytes ("/repo/img.png")
          diffImage := some diffURL
          currentLabel := "Current"
          previousLabel := "Previous Commit (HEAD~1)" } ∧
      DiffImageGenerator.generateCount demoRedBytes demoBlueBytes = some n ∧
      (DiffViewerService.openDiffViewer
          ⟨"/repo/img.png", demoRedBytes, demoBlueBytes, "Current",
            "Previous Commit (HEAD~1)"⟩).includedDiffPixelCount = none :=
  ⟨by decide,
    pipeline_payloads_and_discarded_count ("/repo/img.png") demoRedBytes demoBlueBytes
      ("Current") ("Previous Commit (HEAD~1)") (by decide) (by decide)⟩

/-! ## Claim C8 — git command construction -/

/-- The slash-normalized path contains no backslash. -/
theorem replaceBackslashes_no_backslash (s : String) :
    ∀ c ∈ (replaceBackslashes s).toList, c ≠ '\\' := by
  intro c hc
  have : c ∈ s.toList.map fun d => if d = '\\' then '/' else d := hc
  obtain ⟨d, hd, hdc⟩ := List.mem_map.mp this
  by_cases h : d = '\\'
  · subst hdc; simp [h]
  · subst hdc; simp [h]

/-- Inside double quotes, quote-free characters accumulate into the current
word. -/
theorem shellWordsGo_quoted (cs : List Char) (h : ∀ c ∈ cs, c ≠ '"') :
    ∀ (rest cur : List Char) (acc : List String),
      shellWordsGo (cs ++ rest) true cur acc = shellWordsGo rest true (cur ++ cs) acc := by
  induction cs with
  | nil => intro rest cur acc; simp
  | cons c cs ih =>
    intro rest cur acc
    have hc : c ≠ '"' := h c (List.mem_cons_self _ _)
    rw [List.cons_append]
    show (if c = '"' then shellWordsGo (cs ++ rest) (!true) cur acc
      else if c = ' ' ∧ true = false then
        (if cur.isEmpty then shellWordsGo (cs ++ rest) true [] acc
          else shellWordsGo (cs ++ rest) true [] (acc ++ [String.mk cur]))
      else shellWordsGo (cs ++ rest) true (cur ++ [c]) acc) = _
    rw [if_neg hc, if_neg (by simp)]
    rw [ih (fun d hd => h d (List.mem_cons_of_mem _ hd)) rest (cur ++ [c]) acc]
    simp

/-- Outside quotes, quote-free space-free characters accumulate into the
current word. -/
theorem shellWordsGo_plain (cs : List Char) (h : ∀ c ∈ cs, c ≠ '"' ∧ c ≠ ' ') :
    ∀ (rest cur : List Char) (acc : List String),
      shellWordsGo (cs ++ rest) false cur acc = shellWordsGo rest false (cur ++ cs) acc := by
  induction cs with
  | nil => intro rest cur acc; simp
  | cons c cs ih =>
    intro rest cur acc
    have hc : c ≠ '"' := (h c (List.mem_cons_self _ _)).1
    have hs : c ≠ ' ' := (h c (List.mem_cons_self _ _)).2
    rw [List.cons_append]
    show (if c = '"' then shellWordsGo (cs ++ rest) (!false) cur acc
      else if c = ' ' ∧ false = false then
        (if cur.isEmpty then shellWordsGo (cs ++ rest) false [] acc
          else shellWordsGo (cs ++ rest) false [] (acc ++ [String.mk cur]))
      else shellWordsGo (cs ++ rest) false (cur ++ [c]) acc) = _
    rw [if_neg hc, if_neg (by simp [hs])]
    rw [ih (fun d hd => h d (List.mem_cons_of_mem _ hd)) rest (cur ++ [c]) acc]
    simp

/-- Flushing a nonempty final word. -/
theorem shellWordsGo_flush (l : List Char) (acc : List String) (hl : l ≠ []) :
    shellWordsGo [] false l acc = some (acc ++ [String.mk l]) := by
  show some (if l.isEmpty then acc else acc ++ [String.mk l]) = _
  rw [if_neg (by simpa using hl)]

/-- C8 (amended): the command is built from the file path made relative to
the root with every backslash replaced by a forward slash, and the path is
wrapped in double quotes, which tolerates spaces — the command parses into
`git show REV:PATH` as one argument — provided the path itself contains no
double quote. -/
theorem git_command_relative_slash_quoted (options : GitVersionOptions)
    (hrev : ∀ c ∈ options.revision.toList, c ≠ '"' ∧ c ≠ ' ')
    (hrel : ∀ c ∈ (replaceBackslashes
      (pathRelative options.workspaceRoot options.filePath)).toList, c ≠ '"') :
    GitService.buildCommand options =
      "git show " ++ options.revision ++ ":\"" ++
        replaceBackslashes (pathRelative options.workspaceRoot options.filePath) ++ "\"" ∧
    (∀ c ∈ (replaceBackslashes
      (pathRelative options.workspaceRoot options.filePath)).toList, c ≠ '\\') ∧
    shellWords (GitService.buildCommand options) =
      some ["git", "show", options.revision ++ ":" ++
        replaceBackslashes (pathRelative options.workspaceRoot options.filePath)] := by
  refine ⟨rfl, replaceBackslashes_no_backslash _, ?_⟩
  have hdata : (GitService.buildCommand options).data =
      'g' :: 'i' :: 't' :: ' ' :: 's' :: 'h' :: 'o' :: 'w' :: ' ' ::
        (options.revision.data ++ (':' :: '"' ::
          ((replaceBackslashes (pathRelative options.workspaceRoot options.filePath)).data
            ++ ['"']))) := by
    show ("git show " ++ options.revision ++ ":\"" ++
        replaceBackslashes (pathRelative options.workspaceRoot options.filePath) ++ "\"").data = _
    rw [String.data_append, String.data_append, String.data_append, String.data_append]
    show ['g', 'i', 't', ' ', 's', 'h', 'o', 'w', ' '] ++ options.revision.data ++
      [':', '"'] ++
      (replaceBackslashes (pathRelative options.workspaceRoot options.filePath)).data ++
      ['"'] = _
    simp [List.append_assoc]
  unfold shellWords
  show shellWordsGo (GitService.buildCommand options).data false [] [] = _
  rw [hdata]
  rw [show ∀ tail : List Char,
      shellWordsGo ('g' :: 'i' :: 't' :: ' ' :: 's' :: 'h' :: 'o' :: 'w' :: ' ' :: tail)
        false [] [] = shellWordsGo tail false [] ["git", "show"] from fun _ => rfl]
  rw [shellWordsGo_plain options.revision.data hrev]
  rw [show ∀ (tail cur : List Char) (acc : List String),
      shellWordsGo (':' :: '"' :: tail) false cur acc =
        shellWordsGo tail true (cur ++ [':']) acc from fun _ _ _ => rfl]
  rw [shellWordsGo_quoted
    (replaceBackslashes (pathRelative options.workspaceRoot options.filePath)).data hrel]
  rw [show ∀ (cur : List Char) (acc : List String),
      shellWordsGo ['"'] true cur acc = shellWordsGo [] false cur acc from fun _ _ => rfl]
  rw [shellWordsGo_flush _ _ (by simp)]
  have hstr : String.mk (([] ++ options.revision.data ++ [':']) ++
      (replaceBackslashes (pathRelative options.workspaceRoot options.filePath)).data) =
      options.revision ++ ":" ++
        replaceBackslashes (pathRelative options.workspaceRoot options.filePath) := by
    have h1 : (options.revision ++ ":" ++
        replaceBackslashes (pathRelative options.workspaceRoot options.filePath)).data =
        ([] ++ options.revision.data ++ [':']) ++
          (replaceBackslashes (pathRelative options.workspaceRoot options.filePath)).data := by
      rw [String.data_append, String.data_append]
      simp
    rw [← h1]
  rw [hstr]
  rfl

/-- Counterexample for C8: the path is merely wrapped in double quotes, not
escaped — a filename containing a double quote breaks the command (the
built command no longer parses as a well-formed shell word list), while a
filename with spaces parses fine. -/
theorem quoted_filename_breaks_git_command :
    GitService.buildCommand ⟨"/repo/a\"b.png", "HEAD~1", "/repo"⟩ =
      "git show HEAD~1:\"a\"b.png\"" ∧
    shellWords ("git show HEAD~1:\"a\"b.png\"") = none ∧
    shellWords ("git show HEAD~1:\"a b.png\"") = some ["git", "show", "HEAD~1:a b.png"] :=
  ⟨by decide, by decide, by decide⟩

/-- Witness for C8: the amended theorem at a filename containing spaces. -/
theorem git_command_relative_slash_quoted_witness :
    GitService.buildCommand ⟨"/repo/my pic 1.png", "HEAD~1", "/repo"⟩ =
      "git show " ++ "HEAD~1" ++ ":\"" ++
        replaceBackslashes (pathRelative ("/repo") ("/repo/my pic 1.png")) ++ "\"" ∧
    (∀ c ∈ (replaceBackslashes (pathRelative ("/repo") ("/repo/my pic 1.png"))).toList,
      c ≠ '\\') ∧
    shellWords (GitService.buildCommand ⟨"/repo/my pic 1.png", "HEAD~1", "/repo"⟩) =
      some ["git", "show", "HEAD~1" ++ ":" ++
        replaceBackslashes (pathRelative ("/repo") ("/repo/my pic 1.png"))] :=
  git_command_relative_slash_quoted ⟨"/repo/my pic 1.png", "HEAD~1", "/repo"⟩
    (by decide) (by decide)
